import Mathlib

/-
Verification of the SiLLM LoRA / generation / training-loop logic.

Shallow embedding conventions:
* tensors are rational-valued (`ℚ`); dtype casts (`astype`, float16 rounding)
  are value-preserving in this embedding;
* the external mlx collaborators (quantization kernels, random initializers,
  dropout, the model forward pass, the categorical sampler, the per-batch loss)
  are passed in as explicit function parameters;
* Python exceptions are modelled with `Except`.
-/

namespace SiLLM

/-- mlx `nn.Linear`: weight of shape (output_dims, input_dims), optional bias.
The layer computes `x @ weight.T + bias`. -/
structure Linear (inDim outDim : ℕ) where
  weight : Matrix (Fin outDim) (Fin inDim) ℚ
  bias : Option (Fin outDim → ℚ)

/-- Application of an mlx linear layer to an input vector: `x @ W.T + b`. -/
def Linear.call {inDim outDim : ℕ} (l : Linear inDim outDim) (x : Fin inDim → ℚ) :
    Fin outDim → ℚ :=
  fun o => Matrix.vecMul x l.weight.transpose o +
    (match l.bias with
     | some b => b o
     | none => 0)

/-- mlx `nn.QuantizedLinear`: group size, bit width, optional bias, and the
packed representation (weight/scales/biases tensors), which only the external
quantization kernels interpret; it is stored as an opaque value of `π`. -/
structure QuantizedLinear (inDim outDim : ℕ) (π : Type) where
  groupSize : ℕ
  bits : ℕ
  packed : π
  bias : Option (Fin outDim → ℚ)

/-- The external mlx quantization kernels, as used by `LoRALinear.merge`:
`mx.dequantize(weight, scales, biases, group_size, bits)` (reading the packed
data of the layer) and `nn.QuantizedLinear.from_linear(linear, group_size, bits)`. -/
structure QuantKernel (inDim outDim : ℕ) (π : Type) where
  dequantize : π → ℕ → ℕ → Matrix (Fin outDim) (Fin inDim) ℚ
  fromLinear : Linear inDim outDim → ℕ → ℕ → QuantizedLinear inDim outDim π

/-- `LoRALinear` wrapping a plain `nn.Linear` (the Python class dispatches on
`isinstance(self.linear, nn.QuantizedLinear)`; the two cases are embedded as
two structures).  `scale` stores `scale * (alpha / rank)` as computed in
`__init__`; `lora_a : input_dims × rank`, `lora_b : rank × output_dims`. -/
structure LoRALinear (inDim outDim rank : ℕ) where
  linear : Linear inDim outDim
  scale : ℚ
  lora_a : Matrix (Fin inDim) (Fin rank) ℚ
  lora_b : Matrix (Fin rank) (Fin outDim) ℚ

/-- `LoRALinear` wrapping an mlx `nn.QuantizedLinear`. -/
structure LoRALinearQ (inDim outDim rank : ℕ) (π : Type) where
  linear : QuantizedLinear inDim outDim π
  scale : ℚ
  lora_a : Matrix (Fin inDim) (Fin rank) ℚ
  lora_b : Matrix (Fin rank) (Fin outDim) ℚ

/-- `LoRALinear.from_linear` on a plain linear layer combined with the body of
`__init__`: `scale = scale * (alpha / rank)`, `lora_b = zeros`; the random
uniform draw for `lora_a` (in `[-1/sqrt(input_dims), 1/sqrt(input_dims)]`) is
an external random initializer and is passed in as `a_init`. -/
def LoRALinear.from_linear {inDim outDim : ℕ} (linear : Linear inDim outDim)
    (rank : ℕ) (alpha scale : ℚ) (a_init : Matrix (Fin inDim) (Fin rank) ℚ) :
    LoRALinear inDim outDim rank :=
  { linear := linear
    scale := scale * (alpha / rank)
    lora_a := a_init
    lora_b := 0 }

/-- `LoRALinear.__call__`:
`y = self.linear(x.astype(dtype)); z = (self.lora_dropout(x) @ self.lora_a) @ self.lora_b;
return y + self.scale * z`.  The dtype cast is value-preserving here; dropout is
an external random map passed in as `drop`. -/
def LoRALinear.call {inDim outDim rank : ℕ}
    (drop : (Fin inDim → ℚ) → Fin inDim → ℚ)
    (self : LoRALinear inDim outDim rank) (x : Fin inDim → ℚ) : Fin outDim → ℚ :=
  let y := self.linear.call x
  let z := Matrix.vecMul (Matrix.vecMul (drop x) self.lora_a) self.lora_b
  fun o => y o + self.scale * z o

/-- `LoRALinear.merge` for a wrapped plain linear layer (the
`quantized = False` path): `update = (lora_a @ lora_b).transpose();
weight = (weight + scale * update).astype(dtype); linear.weight = weight;
return linear`. -/
def LoRALinear.merge {inDim outDim rank : ℕ} (self : LoRALinear inDim outDim rank) :
    Linear inDim outDim :=
  let weight := self.linear.weight
  let update := (self.lora_a * self.lora_b).transpose
  let weight2 := weight + self.scale • update
  { self.linear with weight := weight2 }

/-- `LoRALinear.merge` for a wrapped quantized layer (the `quantized = True`
path).  The Python code dequantizes, adds `scale * (lora_a @ lora_b).T`, casts
to `float16` — and then constructs a *fresh* `nn.Linear(input_dims,
output_dims, bias=bias)` (whose randomly initialized weight is passed in here
as `freshWeight`) and returns `nn.QuantizedLinear.from_linear(linear,
group_size, bits)` on that fresh layer; the merged weight is never assigned to
it, exactly as in the source. -/
def LoRALinearQ.merge {inDim outDim rank : ℕ} {π : Type}
    (K : QuantKernel inDim outDim π)
    (freshWeight : Matrix (Fin outDim) (Fin inDim) ℚ)
    (self : LoRALinearQ inDim outDim rank π) : QuantizedLinear inDim outDim π :=
  let linear := self.linear
  let groupSize := linear.groupSize
  let bits := linear.bits
  let weight := K.dequantize linear.packed groupSize bits
  let update := (self.lora_a * self.lora_b).transpose
  let _weight2 := weight + self.scale • update
  let fresh : Linear inDim outDim :=
    { weight := freshWeight
      bias := if linear.bias.isSome then some (fun _ => 0) else none }
  K.fromLinear fresh groupSize bits

/-- Lossless 1×1 quantization kernel used as a concrete instance: the packed
representation is the dequantized weight itself, so the quantization error is
exactly zero. -/
def losslessKernel : QuantKernel 1 1 (Matrix (Fin 1) (Fin 1) ℚ) :=
  { dequantize := fun p _ _ => p
    fromLinear := fun l gs b =>
      { groupSize := gs, bits := b, packed := l.weight, bias := l.bias } }

/-- Concrete quantized layer: dequantized weight `[[2]]`, group size 64, 4 bits. -/
def exQLinear : QuantizedLinear 1 1 (Matrix (Fin 1) (Fin 1) ℚ) :=
  { groupSize := 64, bits := 4, packed := !![2], bias := none }

/-- Concrete trained adapter around `exQLinear`: `scale = 10 * (16 / 8) = 20`,
`lora_a = [[1]]`, `lora_b = [[1]]`. -/
def exAdapter : LoRALinearQ 1 1 1 (Matrix (Fin 1) (Fin 1) ℚ) :=
  { linear := exQLinear, scale := 20, lora_a := !![1], lora_b := !![1] }

/-- The merged weight the claim describes for `exAdapter`:
dequantized weight plus `scale * (lora_a @ lora_b).T`. -/
def exMergedWeight : Matrix (Fin 1) (Fin 1) ℚ :=
  losslessKernel.dequantize exQLinear.packed exQLinear.groupSize exQLinear.bits +
    exAdapter.scale • (exAdapter.lora_a * exAdapter.lora_b).transpose

/-- C2: for a freshly wrapped plain linear layer (`lora_b` is all zeros), the
adapter's forward evaluation returns exactly the original layer's output on
every input `x`, for every dropout realization `drop` and every random
initialization `a_init`. -/
theorem lora_fresh_wrap_is_noop {inDim outDim rank : ℕ}
    (linear : Linear inDim outDim) (alpha scale : ℚ)
    (a_init : Matrix (Fin inDim) (Fin rank) ℚ)
    (drop : (Fin inDim → ℚ) → Fin inDim → ℚ) (x : Fin inDim → ℚ) :
    (LoRALinear.from_linear linear rank alpha scale a_init).call drop x =
      linear.call x := by
  funext o
  simp [LoRALinear.call, LoRALinear.from_linear]

/-- C3: merging an adapter over a plain linear layer yields a layer whose
weight is the original weight plus `scale * (lora_a @ lora_b).T`, and whose
bias is preserved unchanged. -/
theorem lora_merge_plain_adds_correction {inDim outDim rank : ℕ}
    (self : LoRALinear inDim outDim rank) :
    (self.merge).weight =
        self.linear.weight + self.scale • (self.lora_a * self.lora_b).transpose ∧
      (self.merge).bias = self.linear.bias := by
  constructor <;> rfl

lemma exMergedWeight_eq : exMergedWeight = !![22] := by
  ext i j
  fin_cases i
  fin_cases j
  simp [exMergedWeight, losslessKernel, exQLinear, exAdapter, Matrix.mul_apply]
  norm_num

/-- C1: in the quantized branch of `LoRALinear.merge`, the returned quantized
layer is rebuilt from the *freshly initialized* `nn.Linear` weight, not from
the merged weight (the merged weight is a dead store).  First conjunct: for
every kernel, fresh weight and adapter, the result is exactly the quantization
of the fresh layer, independent of the LoRA factors.  Concretely, with a
lossless 1×1 kernel (zero quantization error), dequantized base weight `[[2]]`
and correction `20 * 1`, the claim requires the returned layer to dequantize
to the merged weight `[[22]]`, but the code returns a layer that dequantizes
to the fresh weight `[[0]]`. -/
theorem lora_merge_quantized_drops_update :
    (∀ (inDim outDim rank : ℕ) (π : Type) (K : QuantKernel inDim outDim π)
      (freshWeight : Matrix (Fin outDim) (Fin inDim) ℚ)
      (self : LoRALinearQ inDim outDim rank π),
      LoRALinearQ.merge K freshWeight self =
        K.fromLinear
          { weight := freshWeight
            bias := if self.linear.bias.isSome then some (fun _ => 0) else none }
          self.linear.groupSize self.linear.bits) ∧
    exMergedWeight = !![22] ∧
    (LoRALinearQ.merge losslessKernel (0 : Matrix (Fin 1) (Fin 1) ℚ) exAdapter).packed
      = (0 : Matrix (Fin 1) (Fin 1) ℚ) ∧
    (LoRALinearQ.merge losslessKernel (0 : Matrix (Fin 1) (Fin 1) ℚ) exAdapter).packed
      ≠ exMergedWeight := by
  refine ⟨fun _ _ _ _ _ _ _ => rfl, exMergedWeight_eq, rfl, ?_⟩
  intro h
  rw [exMergedWeight_eq] at h
  have h0 := congrFun (congrFun h 0) 0
  norm_num [LoRALinearQ.merge, losslessKernel, exAdapter, exQLinear] at h0

/-! ### `LLM.generate` (llm.py) -/

/-- `mx.argmax(logits, axis=-1)` over a non-empty logit vector: the index of
the first maximal entry. -/
def argmaxLogits {V : ℕ} (logits : Fin (V + 1) → ℚ) : Fin (V + 1) :=
  (List.finRange (V + 1)).foldl (fun best i => if logits best < logits i then i else best) 0

/-- The `sample` closure inside `LLM.generate.generate_step`: greedy argmax if
`temp == 0`, otherwise `mx.random.categorical(logits * (1 / temp))`.  The
categorical sampler is an external randomized kernel: it is passed in as
`categorical`, consuming one value `r` of the random stream. -/
def sample {V : ℕ} (temp : ℚ)
    (categorical : (Fin (V + 1) → ℚ) → ℚ → Fin (V + 1)) (r : ℚ)
    (logits : Fin (V + 1) → ℚ) : Fin (V + 1) :=
  if temp = 0 then argmaxLogits logits
  else categorical (fun i => logits i * (1 / temp)) r

/-- The token loop of `LLM.generate`:
`for token, _ in zip(generate_step(), range(num_tokens))` with the early break
on the end-of-sequence token, the `% flush` chunking, and the final flush of
the remainder.  `sampleAt` maps the running token history (prompt plus
generated tokens, which is what the model cache represents) to the next sampled
token; the fuel is `num_tokens`; the result is the list of yielded chunks
(token ids; decoding to text is external). -/
def genLoop (sampleAt : List ℕ → ℕ) (eosId : ℕ) (flush : ℕ) :
    ℕ → List ℕ → List ℕ → List (List ℕ)
  | 0, _, tokens => [tokens]
  | fuel + 1, hist, tokens =>
    if sampleAt hist = eosId then [tokens]
    else
      if (tokens ++ [sampleAt hist]).length % flush = 0 then
        (tokens ++ [sampleAt hist]) ::
          genLoop sampleAt eosId flush fuel (hist ++ [sampleAt hist]) []
      else
        genLoop sampleAt eosId flush fuel (hist ++ [sampleAt hist])
          (tokens ++ [sampleAt hist])

/-- `LLM.generate`: the model forward pass (with its cache) is embedded as a
function `model` from the token history to next-token logits; `rand` is the
stream of randomness consumed by the categorical sampler, indexed by history
length (one draw per step); `prompt` is the encoded prompt. -/
def generate {V : ℕ} (model : List ℕ → Fin (V + 1) → ℚ)
    (categorical : (Fin (V + 1) → ℚ) → ℚ → Fin (V + 1)) (rand : ℕ → ℚ)
    (temp : ℚ) (eosId numTokens flush : ℕ) (prompt : List ℕ) : List (List ℕ) :=
  genLoop (fun hist => (sample temp categorical (rand hist.length) (model hist)).val)
    eosId flush numTokens prompt []

lemma genLoop_flatten_length (sampleAt : List ℕ → ℕ) (eosId flush : ℕ) :
    ∀ (fuel : ℕ) (hist tokens : List ℕ),
      ((genLoop sampleAt eosId flush fuel hist tokens).flatten).length ≤
        fuel + tokens.length := by
  intro fuel
  induction fuel with
  | zero =>
    intro hist tokens
    simp [genLoop]
  | succ n ih =>
    intro hist tokens
    rw [genLoop]
    by_cases he : sampleAt hist = eosId
    · rw [if_pos he]
      simp
    · rw [if_neg he]
      by_cases hf : (tokens ++ [sampleAt hist]).length % flush = 0
      · rw [if_pos hf]
        have h1 := ih (hist ++ [sampleAt hist]) []
        simp only [List.length_nil, Nat.add_zero] at h1
        simp only [List.flatten_cons, List.length_append, List.length_cons,
          List.length_nil]
        omega
      · rw [if_neg hf]
        have h1 := ih (hist ++ [sampleAt hist]) (tokens ++ [sampleAt hist])
        simp only [List.length_append, List.length_cons, List.length_nil] at h1 ⊢
        omega

lemma genLoop_no_eos (sampleAt : List ℕ → ℕ) (eosId flush : ℕ) :
    ∀ (fuel : ℕ) (hist tokens : List ℕ), eosId ∉ tokens →
      ∀ chunk ∈ genLoop sampleAt eosId flush fuel hist tokens, eosId ∉ chunk := by
  intro fuel
  induction fuel with
  | zero =>
    intro hist tokens h chunk hc
    simp [genLoop] at hc
    rw [hc]
    exact h
  | succ n ih =>
    intro hist tokens h chunk hc
    rw [genLoop] at hc
    by_cases he : sampleAt hist = eosId
    · rw [if_pos he] at hc
      simp at hc
      rw [hc]
      exact h
    · rw [if_neg he] at hc
      have hnew : eosId ∉ tokens ++ [sampleAt hist] := by
        intro hmem
        rcases List.mem_append.mp hmem with hm | hm
        · exact h hm
        · exact he (List.mem_singleton.mp hm).symm
      by_cases hf : (tokens ++ [sampleAt hist]).length % flush = 0
      · rw [if_pos hf] at hc
        rcases List.mem_cons.mp hc with hc | hc
        · rw [hc]
          exact hnew
        · exact ih (hist ++ [sampleAt hist]) [] (by simp) chunk hc
      · rw [if_neg hf] at hc
        exact ih (hist ++ [sampleAt hist]) (tokens ++ [sampleAt hist]) hnew chunk hc

/-- C4: `generate` runs its sampling loop at most `numTokens` times (the fuel
of `genLoop`), stopping early when the sampled token equals the end-of-sequence
id; the total number of tokens emitted across all yielded chunks never exceeds
`numTokens`, and the end-of-sequence token never occurs in any yielded chunk. -/
theorem generate_bounded_and_eos_free {V : ℕ} (model : List ℕ → Fin (V + 1) → ℚ)
    (categorical : (Fin (V + 1) → ℚ) → ℚ → Fin (V + 1)) (rand : ℕ → ℚ)
    (temp : ℚ) (eosId numTokens flush : ℕ) (prompt : List ℕ) :
    ((generate model categorical rand temp eosId numTokens flush prompt).flatten).length
        ≤ numTokens ∧
      ∀ chunk ∈ generate model categorical rand temp eosId numTokens flush prompt,
        eosId ∉ chunk := by
  constructor
  · have := genLoop_flatten_length
      (fun hist => (sample temp categorical (rand hist.length) (model hist)).val)
      eosId flush numTokens prompt []
    simpa [generate] using this
  · intro chunk hc
    exact genLoop_no_eos _ eosId flush numTokens prompt [] (by simp) chunk hc

/-- C5: with temperature exactly zero, sampling is greedy argmax (ignoring the
categorical kernel and the random stream entirely), so two `generate` runs on
the same prompt and the same model produce identical chunk sequences whatever
randomness either run was given. -/
theorem generate_temp_zero_deterministic {V : ℕ} (model : List ℕ → Fin (V + 1) → ℚ)
    (cat₁ cat₂ : (Fin (V + 1) → ℚ) → ℚ → Fin (V + 1)) (rand₁ rand₂ : ℕ → ℚ)
    (eosId numTokens flush : ℕ) (prompt : List ℕ) :
    (∀ (r : ℚ) (logits : Fin (V + 1) → ℚ),
        sample 0 cat₁ r logits = argmaxLogits logits) ∧
      generate model cat₁ rand₁ 0 eosId numTokens flush prompt =
        generate model cat₂ rand₂ 0 eosId numTokens flush prompt := by
  constructor
  · intro r logits
    simp [sample]
  · have hs : (fun hist => (sample (0 : ℚ) cat₁ (rand₁ hist.length) (model hist)).val) =
        (fun hist => (sample (0 : ℚ) cat₂ (rand₂ hist.length) (model hist)).val) := by
      funext hist
      simp [sample]
    unfold generate
    rw [hs]

/-! ### `TrainableLoRA.evaluate` (training/lora.py) -/

/-- `TrainableLoRA.evaluate`: loops over `zip(range(num_batches),
dataset.iterate_batches(batch_size))` (i.e. the first `num_batches` batches of
the external iterator, embedded as the list `batches`), appends
`(losses * toks).item()` to `all_losses` and accumulates `num_tokens`, then
returns `np.sum(all_losses) / num_tokens`.  The external `self.loss(*batch)`
call is embedded as `lossF`, returning the (loss, token count) pair of a
batch; no model state is read or written. -/
def evaluate {β : Type} (lossF : β → ℚ × ℕ) (batches : List β) (numBatches : ℕ) : ℚ :=
  let final := (batches.take numBatches).foldl
    (fun (acc : List ℚ × ℕ) (b : β) =>
      (acc.1 ++ [(lossF b).1 * ((lossF b).2 : ℚ)], acc.2 + (lossF b).2))
    ([], 0)
  final.1.sum / (final.2 : ℚ)

lemma evaluate_foldl_spec {β : Type} (lossF : β → ℚ × ℕ) :
    ∀ (l : List β) (acc1 : List ℚ) (acc2 : ℕ),
      l.foldl (fun (acc : List ℚ × ℕ) (b : β) =>
          (acc.1 ++ [(lossF b).1 * ((lossF b).2 : ℚ)], acc.2 + (lossF b).2))
        (acc1, acc2) =
      (acc1 ++ l.map (fun b => (lossF b).1 * ((lossF b).2 : ℚ)),
        acc2 + (l.map (fun b => (lossF b).2)).sum) := by
  intro l
  induction l with
  | nil =>
    intro acc1 acc2
    simp
  | cons b rest ih =>
    intro acc1 acc2
    simp only [List.foldl_cons, List.map_cons, List.sum_cons]
    rw [ih]
    simp
    omega

/-- C6: `evaluate` returns the token-weighted average loss
`sum(loss_i * toks_i) / sum(toks_i)` over the first `numBatches` batches of
the dataset iterator (and it is a pure function of the batches — no model
update happens). -/
theorem evaluate_token_weighted_average {β : Type} (lossF : β → ℚ × ℕ)
    (batches : List β) (numBatches : ℕ) (h : 1 ≤ numBatches) :
    evaluate lossF batches numBatches =
      ((batches.take numBatches).map (fun b => (lossF b).1 * ((lossF b).2 : ℚ))).sum /
        (((batches.take numBatches).map (fun b => ((lossF b).2 : ℚ))).sum) := by
  unfold evaluate
  rw [evaluate_foldl_spec]
  simp only [List.nil_append]
  congr 1
  rw [Nat.zero_add, Nat.cast_list_sum, List.map_map]
  rfl

/-- Witness for C6 at the spec's concrete example: 2 batches with token counts
[10, 20] and losses [2.0, 3.0] give `(2*10 + 3*20)/30 = 8/3`. -/
theorem evaluate_token_weighted_average_witness :
    evaluate (fun r : ℚ × ℕ => r) [((2 : ℚ), (10 : ℕ)), ((3 : ℚ), (20 : ℕ))] 2 = 8 / 3 := by
  rw [evaluate_token_weighted_average (fun r : ℚ × ℕ => r)
    [((2 : ℚ), (10 : ℕ)), ((3 : ℚ), (20 : ℕ))] 2 (by norm_num)]
  norm_num

/-! ### Module tree, LoRA lifecycle (`TrainableLoRA.init_lora` /
`merge_and_unload_lora`) and `LLM.quantize`.

The lifecycle and quantization claims concern which modules are selected,
replaced, and which state fields change — not the numeric content of the
weights — so the module tree is embedded at the level of module kinds: each
named sub-module is a `linear` (with its output width, i.e. `weight.shape[0]`),
a `quantizedLinear`, a `loraLinear` (recording whether it wraps a quantized
layer, which decides what `merge()` returns), or some `other` module. -/

inductive NModule where
  | linear (outDim : ℕ)
  | quantizedLinear (outDim : ℕ)
  | loraLinear (wrapsQuantized : Bool) (outDim : ℕ)
  | other
  deriving DecidableEq

/-- `isinstance(module, nn.Linear) or isinstance(module, nn.QuantizedLinear)`
(the `"all_linear"` selection test). -/
def isLinearModule : NModule → Bool
  | .linear _ => true
  | .quantizedLinear _ => true
  | _ => false

/-- `re.search(r"\.attention\.(wq|wv)$", key)`: the key ends in
`.attention.wq` or `.attention.wv`. -/
def matchesQueryValue (key : String) : Bool :=
  (".attention.wq".data).isSuffixOf key.data || (".attention.wv".data).isSuffixOf key.data

/-- `LoRALinear.from_linear` at module-kind level: wrapping records whether the
wrapped layer was quantized and keeps its output width. -/
def wrapLoRA : NModule → NModule
  | .linear d => .loraLinear false d
  | .quantizedLinear d => .loraLinear true d
  | m => m

/-- `LoRALinear.merge` at module-kind level: an adapter over a quantized layer
merges back to a quantized linear, otherwise to a plain linear. -/
def mergeModule : NModule → NModule
  | .loraLinear true d => .quantizedLinear d
  | .loraLinear false d => .linear d
  | m => m

/-- `model.update_modules(tree_unflatten(updates))`: every named module that
occurs in `updates` is replaced, the rest of the tree is unchanged. -/
def update_modules (tree updates : List (String × NModule)) :
    List (String × NModule) :=
  tree.map (fun km =>
    match updates.find? (fun u => u.1 == km.1) with
    | some u => (km.1, u.2)
    | none => km)

/-- The `self._lora` dictionary of `TrainableLoRA.init_lora`. -/
structure LoRAConfig where
  num_layers : ℤ
  target_modules : String
  rank : ℕ
  deriving DecidableEq

/-- The state of a `TrainableLoRA` wrapper touched by the LoRA lifecycle:
the named module tree, `len(self.model.layers)`, whether base parameters are
frozen, the training-mode flag, `self._lora` and `self._lora_modules`. -/
structure TrainableState where
  tree : List (String × NModule)
  numModelLayers : ℕ
  frozen : Bool
  trainingMode : Bool
  lora : Option LoRAConfig
  loraModules : List (String × NModule)
  deriving DecidableEq

/-- `TrainableLoRA.init_lora`: the whole body is guarded by
`if self._lora is None`; it freezes the model, resolves `num_layers`, stores
the `_lora` record, selects and wraps the target modules (`"all_linear"` or
the query/value regex; anything else leaves `_lora_modules` as it was),
replaces them in the tree, and enables training mode.  `alpha`, `dropout` and
`scale` only parameterize the wrapped adapters, which the module-kind tree
does not record. -/
def init_lora (s : TrainableState) (num_layers : ℤ) (target_modules : String)
    (rank : ℕ) (_alpha _dropout _scale : ℚ) : TrainableState :=
  if s.lora = none then
    let numLayers : ℤ := if num_layers < 0 then (s.numModelLayers : ℤ) else num_layers
    let allLinear : String := "all_linear"
    let queryValue : String := "query_value"
    let mods : List (String × NModule) :=
      if target_modules = allLinear then
        (s.tree.filter (fun km => isLinearModule km.2)).map
          (fun km => (km.1, wrapLoRA km.2))
      else if target_modules = queryValue then
        (s.tree.filter (fun km => matchesQueryValue km.1)).map
          (fun km => (km.1, wrapLoRA km.2))
      else s.loraModules
    { s with
      frozen := true
      lora := some { num_layers := numLayers, target_modules := target_modules,
                     rank := rank }
      loraModules := mods
      tree := update_modules s.tree mods
      trainingMode := true }
  else s

/-- `TrainableLoRA.merge_and_unload_lora`: if `self._lora is not None` the
adapters are merged back into the tree; then — unconditionally — `_lora` is
cleared, `_lora_modules` is emptied and training mode is disabled. -/
def merge_and_unload_lora (s : TrainableState) : TrainableState :=
  let s1 :=
    if s.lora ≠ none then
      { s with tree := (update_modules s.tree
          (s.loraModules.map (fun km => (km.1, mergeModule km.2)))) }
    else s
  { s1 with lora := none, loraModules := [], trainingMode := false }

/-- C7: the LoRA lifecycle is a two-state machine.  `init_lora` on an already
Adapted wrapper (`_lora` set) returns the state completely unchanged, and
`merge_and_unload_lora` always ends Unadapted — `_lora` cleared,
`_lora_modules` emptied, training mode off — for every starting state,
including ones with no adapters. -/
theorem lora_lifecycle_two_state :
    (∀ (s : TrainableState) (cfg : LoRAConfig) (nl : ℤ) (tm : String) (r : ℕ)
      (a d sc : ℚ), s.lora = some cfg → init_lora s nl tm r a d sc = s) ∧
    (∀ s : TrainableState,
      (merge_and_unload_lora s).lora = none ∧
      (merge_and_unload_lora s).loraModules = [] ∧
      (merge_and_unload_lora s).trainingMode = false) := by
  constructor
  · intro s cfg nl tm r a d sc h
    unfold init_lora
    rw [if_neg]
    rw [h]
    intro hc
    exact Option.noConfusion hc
  · intro s
    unfold merge_and_unload_lora
    exact ⟨rfl, rfl, rfl⟩

/-- A concrete Adapted state (one wrapped query projection): used to exercise
the lifecycle theorem. -/
def exAdaptedState : TrainableState :=
  { tree := [("model.layers.0.attention.wq", NModule.loraLinear false 64)]
    numModelLayers := 1
    frozen := true
    trainingMode := true
    lora := some { num_layers := 1, target_modules := "query_value", rank := 8 }
    loraModules := [("model.layers.0.attention.wq", NModule.loraLinear false 64)] }

/-- A concrete Unadapted state with no adapters at all. -/
def exUnadaptedState : TrainableState :=
  { tree := [("model.layers.0.attention.wq", NModule.linear 64)]
    numModelLayers := 1
    frozen := false
    trainingMode := false
    lora := none
    loraModules := [] }

/-- Witness for C7: on a concrete Adapted state, `init_lora` changes nothing;
on a concrete adapter-free state, `merge_and_unload_lora` still ends
Unadapted. -/
theorem lora_lifecycle_two_state_witness :
    init_lora exAdaptedState 1 "query_value" 8 16 (1 / 20) 10 = exAdaptedState ∧
    ((merge_and_unload_lora exUnadaptedState).lora = none ∧
      (merge_and_unload_lora exUnadaptedState).loraModules = [] ∧
      (merge_and_unload_lora exUnadaptedState).trainingMode = false) :=
  ⟨lora_lifecycle_two_state.1 exAdaptedState
      { num_layers := 1, target_modules := "query_value", rank := 8 }
      1 "query_value" 8 16 (1 / 20) 10 rfl,
    lora_lifecycle_two_state.2 exUnadaptedState⟩

/-! ### `LLM.quantize` (llm.py) -/

/-- The `{group_size, bits}` quantization record stored in
`self._quantization`. -/
structure Quantization where
  group_size : ℕ
  bits : ℕ
  deriving DecidableEq

/-- The `LLM` state touched by `quantize`: the named module tree and
`self._quantization`. -/
structure LLMState where
  tree : List (String × NModule)
  quantization : Option Quantization
  deriving DecidableEq

/-- Python exceptions raised by the embedded code. -/
inductive PyError where
  | typeErrorNoneNotIterable
  deriving DecidableEq

/-- The Python membership test `m.name not in excluded` where `excluded` has
default value `None`: `x in None` raises
`TypeError: argument of type 'NoneType' is not iterable`. -/
def notInExcluded (excluded : Option (List String)) (name : String) :
    Except PyError Bool :=
  match excluded with
  | none => .error .typeErrorNoneNotIterable
  | some l => .ok (!(l.contains name))

/-- `linear_class_predicate = lambda m: isinstance(m, nn.Linear) and
m.weight.shape[0] != 8 and m.name not in excluded` — note the Python `and`
short-circuits, so the membership test only runs on a plain linear module
whose output width is not 8. -/
def linear_class_predicate (excluded : Option (List String)) (name : String) :
    NModule → Except PyError Bool
  | .linear outDim =>
    if outDim ≠ 8 then notInExcluded excluded name else .ok false
  | _ => .ok false

/-- A linear module on which `linear_class_predicate` reaches the membership
test (a plain `nn.Linear` with output width ≠ 8). -/
def isQuantizableLinear : NModule → Bool
  | .linear d => d ≠ 8
  | _ => false

/-- Replacement performed by `nn.QuantizedLinear.from_linear` inside
`quantize_module`, at module-kind level. -/
def quantizeModule : NModule → NModule
  | .linear d => .quantizedLinear d
  | m => m

/-- `LLM.quantize`: a no-op (with a warning) when already quantized; otherwise
it stores `self._quantization` and calls `nn.QuantizedLinear.quantize_module`,
which evaluates `linear_class_predicate` on every named module of the tree
(building the replacement map) before `update_modules` replaces anything — so
an exception raised by the predicate propagates with the module tree still
unchanged.  The result is the pair of the call's outcome and the state after
the call (also when an exception escapes). -/
def quantize (s : LLMState) (group_size bits : ℕ)
    (excluded : Option (List String)) : Except PyError Unit × LLMState :=
  if s.quantization = none then
    match s.tree.mapM (fun km => do
        let b ← linear_class_predicate excluded km.1 km.2
        pure (km.1, if b then quantizeModule km.2 else km.2)) with
    | .error e =>
      (.error e,
        { s with quantization := some { group_size := group_size, bits := bits } })
    | .ok tree2 =>
      (.ok (),
        { tree := tree2, quantization := some { group_size := group_size, bits := bits } })
  else (.ok (), s)

lemma quantize_mapM_error (excluded : Option (List String))
    (hnone : excluded = none) :
    ∀ tree : List (String × NModule),
      (∃ km ∈ tree, isQuantizableLinear km.2 = true) →
      tree.mapM (fun km => do
          let b ← linear_class_predicate excluded km.1 km.2
          pure (km.1, if b then quantizeModule km.2 else km.2)) =
        (Except.error PyError.typeErrorNoneNotIterable :
          Except PyError (List (String × NModule))) := by
  subst hnone
  intro tree
  induction tree with
  | nil =>
    intro h
    simp at h
  | cons km rest ih =>
    intro h
    rw [List.mapM_cons]
    by_cases hq : isQuantizableLinear km.2 = true
    · have hpred : linear_class_predicate none km.1 km.2 =
          .error .typeErrorNoneNotIterable := by
        rcases km with ⟨name, m⟩
        cases m with
        | linear d =>
          simp [isQuantizableLinear] at hq
          simp [linear_class_predicate, hq, notInExcluded]
        | quantizedLinear d => simp [isQuantizableLinear] at hq
        | loraLinear b d => simp [isQuantizableLinear] at hq
        | other => simp [isQuantizableLinear] at hq
      rw [hpred]
      rfl
    · have hrest : ∃ km ∈ rest, isQuantizableLinear km.2 = true := by
        rcases h with ⟨km2, hmem, hkm2⟩
        rcases List.mem_cons.mp hmem with rfl | hmem2
        · exact absurd hkm2 hq
        · exact ⟨km2, hmem2, hkm2⟩
      have hpred : linear_class_predicate none km.1 km.2 = .ok false := by
        rcases km with ⟨name, m⟩
        cases m with
        | linear d =>
          simp [isQuantizableLinear] at hq
          simp [linear_class_predicate, hq]
        | quantizedLinear d => rfl
        | loraLinear b d => rfl
        | other => rfl
      rw [hpred, ih hrest]
      rfl

lemma quantize_mapM_ok (l : List String) :
    ∀ tree : List (String × NModule),
      ∃ tree2, tree.mapM (fun km => do
          let b ← linear_class_predicate (some l) km.1 km.2
          pure (km.1, if b then quantizeModule km.2 else km.2)) =
        (Except.ok tree2 : Except PyError (List (String × NModule))) := by
  intro tree
  induction tree with
  | nil => exact ⟨[], rfl⟩
  | cons km rest ih =>
    rcases ih with ⟨tree2, htree2⟩
    rw [List.mapM_cons]
    have hpred : ∃ b, linear_class_predicate (some l) km.1 km.2 = .ok b := by
      rcases km with ⟨name, m⟩
      cases m with
      | linear d =>
        by_cases h8 : d ≠ 8
        · exact ⟨!(l.contains name), by simp [linear_class_predicate, h8, notInExcluded]⟩
        · exact ⟨false, by simp [linear_class_predicate, h8]⟩
      | quantizedLinear d => exact ⟨false, rfl⟩
      | loraLinear b d => exact ⟨false, rfl⟩
      | other => exact ⟨false, rfl⟩
    rcases hpred with ⟨b, hb⟩
    rw [hb, htree2]
    exact ⟨(km.1, if b then quantizeModule km.2 else km.2) :: tree2, rfl⟩

/-- C9: on a not-yet-quantized model containing at least one plain linear
module of output width ≠ 8 (true of every model this wrapper constructs —
for any other module the Python `and` short-circuits before the membership
test), calling `quantize` with the default `excluded = None` raises a
`TypeError` from `name not in excluded`, with the module tree unchanged (the
predicate runs before any replacement); with an actual list for `excluded`
the call succeeds. -/
theorem quantize_requires_excluded_list (s : LLMState) (group_size bits : ℕ)
    (hq : s.quantization = none)
    (hlin : ∃ km ∈ s.tree, isQuantizableLinear km.2 = true) :
    (quantize s group_size bits none).1 =
        .error PyError.typeErrorNoneNotIterable ∧
      (quantize s group_size bits none).2.tree = s.tree ∧
      ∀ l : List String, (quantize s group_size bits (some l)).1 = .ok () := by
  refine ⟨?_, ?_, ?_⟩
  · unfold quantize
    rw [if_pos hq, quantize_mapM_error none rfl s.tree hlin]
  · unfold quantize
    rw [if_pos hq, quantize_mapM_error none rfl s.tree hlin]
  · intro l
    rcases quantize_mapM_ok l s.tree with ⟨tree2, htree2⟩
    unfold quantize
    rw [if_pos hq, htree2]

/-- A concrete unquantized model state with a single output projection of
width 32000. -/
def exLLMState : LLMState :=
  { tree := [("output", NModule.linear 32000)], quantization := none }

/-- Witness for C9 at `exLLMState`: `quantize` with `excluded = None` raises
and leaves the tree unchanged; with `excluded = []` it succeeds. -/
theorem quantize_requires_excluded_list_witness :
    (quantize exLLMState 64 4 none).1 =
        .error PyError.typeErrorNoneNotIterable ∧
      (quantize exLLMState 64 4 none).2.tree = exLLMState.tree ∧
      (quantize exLLMState 64 4 (some [])).1 = .ok () :=
  ⟨(quantize_requires_excluded_list exLLMState 64 4 rfl (by decide)).1,
    (quantize_requires_excluded_list exLLMState 64 4 rfl (by decide)).2.1,
    (quantize_requires_excluded_list exLLMState 64 4 rfl (by decide)).2.2 []⟩

/-! ### `TrainableLoRA.train` (training/lora.py) -/

/-- `if iterations == 0: iterations = len(dataset_training) // batch_size`. -/
def resolveIterations (iterations datasetLen batchSize : ℕ) : ℕ :=
  if iterations = 0 then datasetLen / batchSize else iterations

/-- The global step numbers visited by the nested training loops:
`for epoch in range(epochs): for iter in range(iterations):
n = epoch * iterations + iter`. -/
def trainStepIndices (epochs iterations : ℕ) : List ℕ :=
  (List.range epochs).flatMap
    (fun epoch => (List.range iterations).map (fun it => epoch * iterations + it))

/-- An exception aborting the training loop. -/
inductive TrainAbort where
  | evalCallbackNotCallable
  deriving DecidableEq

/-- The per-step tail of the training loop.  Each visited step `n` first runs
the batch draw, the forward/backward pass and the optimizer update (external
effects not recorded here), then, when `n == 0 or (n + 1) % eval_steps == 0`,
runs validation and calls `eval_callback(n + 1, val_loss)` unconditionally —
`None(...)` raises `TypeError: 'NoneType' object is not callable`.  Returns
the number of completed steps. -/
def runTrainLoop (eval_callback : Option (ℕ → ℚ → Option String))
    (valLoss : ℕ → ℚ) (eval_steps : ℕ) :
    List ℕ → ℕ → Except TrainAbort ℕ
  | [], count => .ok count
  | n :: rest, count =>
    if n = 0 ∨ (n + 1) % eval_steps = 0 then
      match eval_callback with
      | none => .error .evalCallbackNotCallable
      | some cb =>
        let _msg := cb (n + 1) (valLoss n)
        runTrainLoop eval_callback valLoss eval_steps rest (count + 1)
    else runTrainLoop eval_callback valLoss eval_steps rest (count + 1)

/-- `TrainableLoRA.train`, reduced to its control flow: resolve the iteration
count, then run the nested epoch/iteration loops.  Validation losses come from
`evaluate` over the validation set (external here, embedded as `valLoss`);
`report_steps` only controls logging and is unused. -/
def train (eval_callback : Option (ℕ → ℚ → Option String)) (valLoss : ℕ → ℚ)
    (datasetLen batch_size epochs iterations _report_steps eval_steps : ℕ) :
    Except TrainAbort ℕ :=
  runTrainLoop eval_callback valLoss eval_steps
    (trainStepIndices epochs (resolveIterations iterations datasetLen batch_size)) 0

lemma runTrainLoop_some (cb : ℕ → ℚ → Option String) (valLoss : ℕ → ℚ)
    (eval_steps : ℕ) :
    ∀ (steps : List ℕ) (count : ℕ),
      runTrainLoop (some cb) valLoss eval_steps steps count =
        .ok (count + steps.length) := by
  intro steps
  induction steps with
  | nil =>
    intro count
    simp [runTrainLoop]
  | cons n rest ih =>
    intro count
    rw [runTrainLoop]
    by_cases hcond : n = 0 ∨ (n + 1) % eval_steps = 0
    · rw [if_pos hcond]
      rw [ih]
      simp
      omega
    · rw [if_neg hcond]
      rw [ih]
      simp
      omega

lemma trainStepIndices_length (epochs iterations : ℕ) :
    (trainStepIndices epochs iterations).length = epochs * iterations := by
  induction epochs with
  | zero => simp [trainStepIndices]
  | succ e ih =>
    unfold trainStepIndices at ih ⊢
    rw [List.range_succ, List.flatMap_append, List.length_append, ih]
    simp [Nat.succ_mul]

lemma trainStepIndices_head (epochs iterations : ℕ) (he : 1 ≤ epochs)
    (hi : 1 ≤ iterations) :
    ∃ rest, trainStepIndices epochs iterations = 0 :: rest := by
  obtain ⟨e, rfl⟩ : ∃ e, epochs = e + 1 := ⟨epochs - 1, by omega⟩
  obtain ⟨i, rfl⟩ : ∃ i, iterations = i + 1 := ⟨iterations - 1, by omega⟩
  unfold trainStepIndices
  rw [List.range_succ_eq_map, List.flatMap_cons]
  rw [List.range_succ_eq_map, List.map_cons, List.cons_append]
  have h0 : 0 * (i + 1) + 0 = 0 := by omega
  rw [h0]
  exact ⟨_, rfl⟩

/-- C8: with `iterations = 0`, the per-epoch iteration count defaults to
`len(dataset_training) / batch_size` (floor division), the loop visits
`epochs * (len / batchSize)` steps in total, and concretely a run over a
100-example dataset with batch size 4 executes exactly 25 steps in its single
epoch. -/
theorem train_default_iterations :
    (∀ datasetLen batch_size : ℕ,
      resolveIterations 0 datasetLen batch_size = datasetLen / batch_size) ∧
    (∀ epochs datasetLen batch_size : ℕ,
      (trainStepIndices epochs (resolveIterations 0 datasetLen batch_size)).length =
        epochs * (datasetLen / batch_size)) ∧
    resolveIterations 0 100 4 = 25 ∧
    train (some (fun _ _ => none)) (fun _ => 0) 100 4 1 0 10 100 = .ok 25 := by
  refine ⟨fun _ _ => rfl, ?_, rfl, ?_⟩
  · intro epochs datasetLen batch_size
    rw [trainStepIndices_length]
    rfl
  · unfold train
    rw [runTrainLoop_some]
    rw [trainStepIndices_length]
    rfl

/-- C10: calling `train` with the default `eval_callback = None` aborts at the
very first training step — validation always runs at step 0 and the callback
is then invoked unconditionally — whenever at least one step is scheduled
(`epochs ≥ 1` and a positive resolved iteration count); with any provided
callback the training loop runs to completion. -/
theorem train_requires_eval_callback :
    (∀ (valLoss : ℕ → ℚ) (datasetLen batch_size epochs iterations rs es : ℕ),
      1 ≤ epochs → 1 ≤ resolveIterations iterations datasetLen batch_size →
      train none valLoss datasetLen batch_size epochs iterations rs es =
        .error .evalCallbackNotCallable) ∧
    (∀ (cb : ℕ → ℚ → Option String) (valLoss : ℕ → ℚ)
      (datasetLen batch_size epochs iterations rs es : ℕ),
      train (some cb) valLoss datasetLen batch_size epochs iterations rs es =
        .ok (trainStepIndices epochs
          (resolveIterations iterations datasetLen batch_size)).length) := by
  constructor
  · intro valLoss datasetLen batch_size epochs iterations rs es he hi
    rcases trainStepIndices_head epochs
      (resolveIterations iterations datasetLen batch_size) he hi with ⟨rest, hrest⟩
    unfold train
    rw [hrest, runTrainLoop]
    rw [if_pos (Or.inl rfl)]
  · intro cb valLoss datasetLen batch_size epochs iterations rs es
    unfold train
    rw [runTrainLoop_some]
    rw [Nat.zero_add]

/-- Witness for C10: with a 100-example dataset, batch size 4, one epoch and
the default `iterations = 0`, `train` without a callback aborts with the
not-callable error, while the same run with a trivial callback completes its
25 steps. -/
theorem train_requires_eval_callback_witness :
    train none (fun _ => 0) 100 4 1 0 10 100 =
        .error TrainAbort.evalCallbackNotCallable ∧
      train (some (fun _ _ => none)) (fun _ => 0) 100 4 1 0 10 100 =
        .ok (trainStepIndices 1 (resolveIterations 0 100 4)).length :=
  ⟨train_requires_eval_callback.1 (fun _ => 0) 100 4 1 0 10 100 (by decide) (by decide),
    train_requires_eval_callback.2 (fun _ _ => none) (fun _ => 0) 100 4 1 0 10 100⟩

end SiLLM
